import Mathlib

/-!
# godojo command runner (`runner.go`)

A shallow embedding of the command-set data model (`osCmds`, `newCmds`,
`addCmd`), the three single-command executors (`sendCmd`, `tryCmd`,
`inspectCmd`) and the three batch runners (`runCmds`, `tryCmds`,
`inspectCmds`).

Modelling choices.

* Go slices are lists.  `addCmd` reassigns all three slices, so after the call
  returns the values of the slices are those of the appended lists regardless
  of how the backing arrays are shared.
* Everything the code does to the outside world is recorded, in order, in a
  log of `Event`s which is threaded through the functions.
* The outside world answers through an `Env`: each answer may depend on the
  whole log so far, so the same command text may behave differently at
  different moments.
* `os.Exit` and an index-out-of-range run-time failure end the computation:
  they are the `exited` and `panicked` constructors of `Outcome`.
* `errorMsg`, `traceMsg`, `Redactatron` are collaborators defined outside
  `runner.go`; the first two are recorded as log events and the redactor is
  a field of `Env`.
-/

namespace Godojo

set_option linter.unusedVariables false

/-! ## Data model -/

/-- The Go struct `osCmds`: an identifier and three slices. -/
structure osCmds where
  id : String
  cmds : List String
  errmsg : List String
  hard : List Bool
deriving DecidableEq, Repr

/-- The Go function `newCmds`: a zero-valued struct with the id set. -/
def newCmds (d : String) : osCmds :=
  osCmds.mk d [] [] []

/-- The Go function `addCmd`.  The second statement of the source appends the
message to `o.cmds` (already extended by the first statement) and stores the
result in `o.errmsg`. -/
def addCmd (o : osCmds) (cmd : String) (lerr : String) (hard : Bool) : osCmds :=
  let cmds1 := o.cmds ++ [cmd]
  let errmsg1 := cmds1 ++ [lerr]
  let hard1 := o.hard ++ [hard]
  osCmds.mk o.id cmds1 errmsg1 hard1

/-- Command sets obtained from `newCmds` by finitely many `addCmd` calls. -/
inductive Built : osCmds → Prop
  | new (d : String) : Built (newCmds d)
  | add (o : osCmds) (cmd lerr : String) (hard : Bool) :
      Built o → Built (addCmd o cmd lerr hard)

/-- Build a command set from an id and a list of `(cmd, message, hard)`
triples by calling `addCmd` once per triple, in order. -/
def buildCmds (d : String) (items : List (String × String × Bool)) : osCmds :=
  items.foldl (fun o it => addCmd o it.1 it.2.1 it.2.2) (newCmds d)

/-- Every index of `cmds` is an index of `errmsg` and of `hard`. -/
def WellIndexed (c : osCmds) : Prop :=
  c.cmds.length ≤ c.errmsg.length ∧ c.cmds.length ≤ c.hard.length

/-! ## Errors, events, environment -/

/-- Go `error` values that occur in `runner.go`. -/
inductive GoError
  /-- The value of `errors.New(s)`. -/
  | errorString (s : String)
  /-- An `*exec.ExitError`; `sys` is `some status` when `Sys()` is a
  `syscall.WaitStatus` whose `ExitStatus()` is `status`, and `none` when the
  type assertion fails; `text` is its `Error()` string. -/
  | exitError (sys : Option Int) (text : String)
  /-- Any other error value, with its `Error()` string. -/
  | other (text : String)
deriving DecidableEq, Repr

/-- The `Error()` string of an error (what `%+v` and `%v` print). -/
def GoError.Error : GoError → String
  | GoError.errorString s => s
  | GoError.exitError _ t => t
  | GoError.other t => t

/-- What the program does to the outside world. -/
inductive Event
  /-- The call `o.Write` of the prompt line (first write of each executor). -/
  | writePrompt (line : String)
  /-- The call `o.Write(cmdOut)` at the end of `sendCmd`. -/
  | writeOutput (bytes : String)
  /-- A call of `errorMsg`. -/
  | errorMsg (msg : String)
  /-- A call of `traceMsg`. -/
  | traceMsg (msg : String)
  /-- The call `runCmd.CombinedOutput()` for `bash -c cmd`. -/
  | combinedOutput (cmd : String)
  /-- The call `runCmd.Start()` for `bash -c cmd`. -/
  | start (cmd : String)
  /-- The call `runCmd.Wait()` for `bash -c cmd`. -/
  | wait (cmd : String)
deriving DecidableEq, Repr

/-- The answers of the outside world.  Every answer is a function of the log
so far and of the argument of the call. -/
structure Env where
  /-- The redactor `Redactatron(cmd, Redact)`. -/
  redact : String → String
  /-- The value of `timeStamp()`. -/
  timeStamp : List Event → String
  /-- The error returned by `o.Write(bytes)`, if any. -/
  sinkWrite : List Event → String → Option GoError
  /-- The result of `runCmd.CombinedOutput()`. -/
  combinedOutput : List Event → String → String × Option GoError
  /-- The error returned by `runCmd.Start()`, if any. -/
  start : List Event → String → Option GoError
  /-- The result of `runCmd.Wait()` together with the contents of the buffer
  that received the child's standard output. -/
  wait : List Event → String → String × Option GoError

/-- How a computation ends: a normal return, `os.Exit(code)`, or an
index-out-of-range run-time failure. -/
inductive Outcome (α : Type)
  | ret (log : List Event) (val : α)
  | exited (log : List Event) (code : Nat)
  | panicked (log : List Event)
deriving DecidableEq, Repr

/-- The log at the end of a computation. -/
def Outcome.log {α : Type} : Outcome α → List Event
  | Outcome.ret l _ => l
  | Outcome.exited l _ => l
  | Outcome.panicked l => l

/-- The commands for which a process launch was requested, in order. -/
def launched : List Event → List String
  | [] => []
  | Event.combinedOutput cmd :: es => cmd :: launched es
  | Event.start cmd :: es => cmd :: launched es
  | _ :: es => launched es

/-- The prompt lines whose write to the sink was requested, in order. -/
def prompts : List Event → List String
  | [] => []
  | Event.writePrompt line :: es => line :: prompts es
  | _ :: es => prompts es

/-- The captured outputs whose write to the sink was requested, in order. -/
def outputs : List Event → List String
  | [] => []
  | Event.writeOutput b :: es => b :: outputs es
  | _ :: es => outputs es

/-- The prompt-prefixed, redacted rendering of a command. -/
def promptLine (env : Env) (cmd : String) : String :=
  "[godojo] # " ++ env.redact cmd ++ "\n"

/-! ## Best-effort executor -/

/-- The first part of `sendCmd`: write the prompt line; a failed write is
reported with `errorMsg` and nothing else happens. -/
def sendCmdSetup (env : Env) (log : List Event) (cmd : String) : List Event :=
  let log1 := log ++ [Event.writePrompt (promptLine env cmd)]
  match env.sinkWrite log (promptLine env cmd) with
  | some e =>
      log1 ++ [Event.errorMsg ("Failed to setup command, error was: " ++ e.Error)]
  | none => log1

/-- The last part of `sendCmd`: write the captured output to the sink. -/
def sendCmdFinish (env : Env) (log : List Event) (cmdOut : String) : List Event :=
  let log1 := log ++ [Event.writeOutput cmdOut]
  match env.sinkWrite log cmdOut with
  | some e =>
      log1 ++ [Event.errorMsg
        ("Failed to write to OS command log file, error was: " ++ e.Error)]
  | none => log1

/-- The Go function `sendCmd`. -/
def sendCmd (env : Env) (log : List Event) (cmd : String) (lerr : String)
    (hard : Bool) : Outcome Unit :=
  let log1 := sendCmdSetup env log cmd
  let res := env.combinedOutput log1 cmd
  let log2 := log1 ++ [Event.combinedOutput cmd]
  match res.2 with
  | some e =>
      let log3 := log2 ++ [Event.errorMsg
        (env.timeStamp log2 ++ " - Failed to run OS command " ++ env.redact cmd
          ++ ", error was: " ++ e.Error)]
      if hard then Outcome.exited log3 1
      else Outcome.ret (sendCmdFinish env log3 res.1) ()
  | none => Outcome.ret (sendCmdFinish env log2 res.1) ()

/-- The loop of `runCmds`: `n` iterations remain, the next index is `i`. -/
def runCmdsLoop (env : Env) (c : osCmds) : Nat → Nat → List Event → Outcome Unit
  | 0, _, log => Outcome.ret log ()
  | n + 1, i, log =>
      match c.cmds[i]?, c.errmsg[i]?, c.hard[i]? with
      | some cmd, some lerr, some h =>
          match sendCmd env log cmd lerr h with
          | Outcome.ret log1 _ => runCmdsLoop env c n (i + 1) log1
          | Outcome.exited log1 code => Outcome.exited log1 code
          | Outcome.panicked log1 => Outcome.panicked log1
      | _, _, _ => Outcome.panicked log

/-- The Go function `runCmds`. -/
def runCmds (env : Env) (log : List Event) (c : osCmds) : Outcome Unit :=
  runCmdsLoop env c c.cmds.length 0 log

/-! ## Fail-fast streaming executor -/

/-- The Go function `tryCmd`.  The child's standard output and standard error
are connected to the sink; what the child writes is part of the process run
and is not a call made by this function. -/
def tryCmd (env : Env) (log : List Event) (cmd : String) (lerr : String)
    (hard : Bool) : List Event × Option GoError :=
  let log0 := log ++ [Event.traceMsg "Entering tryCmd"]
  let log1 := log0 ++ [Event.writePrompt (promptLine env cmd)]
  match env.sinkWrite log0 (promptLine env cmd) with
  | some e =>
      (log1 ++ [Event.traceMsg ("Failed to setup command " ++ env.redact cmd
        ++ ", error was: " ++ e.Error)], some e)
  | none =>
      let log2 := log1 ++ [Event.start cmd]
      match env.start log1 cmd with
      | some e =>
          (log2 ++ [Event.traceMsg ("Failed to start command, error was: " ++ e.Error)],
            some e)
      | none =>
          let log3 := log2 ++ [Event.wait cmd]
          let done := (log3 ++ [Event.traceMsg "Non-error return from tryCmd"], none)
          match (env.wait log2 cmd).2 with
          | some err =>
              match err with
              | GoError.exitError sys _ =>
                  match sys with
                  | some status =>
                      (log3 ++ [Event.traceMsg (env.timeStamp log3 ++ " - " ++ cmd
                        ++ " errored with exit status: " ++ toString status)], some err)
                  | none => done
              | _ =>
                  (log3 ++ [Event.traceMsg (env.timeStamp log3 ++ " - " ++ cmd
                    ++ " errored from Wait(): " ++ err.Error)], some err)
          | none => done

/-- The loop of `tryCmds`: `n` iterations remain, the next index is `i`. -/
def tryCmdsLoop (env : Env) (c : osCmds) :
    Nat → Nat → List Event → Outcome (Option GoError)
  | 0, _, log => Outcome.ret log none
  | n + 1, i, log =>
      match c.cmds[i]?, c.errmsg[i]?, c.hard[i]? with
      | some cmd, some lerr, some h =>
          let r := tryCmd env log cmd lerr h
          match r.2 with
          | some err =>
              Outcome.ret
                (r.1 ++ [Event.traceMsg (env.timeStamp r.1 ++ " - Command " ++ cmd
                  ++ " errored with " ++ lerr ++ ". Underlying error is " ++ err.Error)])
                (some (GoError.errorString lerr))
          | none => tryCmdsLoop env c n (i + 1) r.1
      | _, _, _ => Outcome.panicked log

/-- The Go function `tryCmds`. -/
def tryCmds (env : Env) (log : List Event) (c : osCmds) : Outcome (Option GoError) :=
  tryCmdsLoop env c c.cmds.length 0 log

/-! ## Inspecting executor -/

/-- The Go function `inspectCmd`; the result is the log, the returned string
and the returned error.  The test of `err` after `io.MultiWriter` in the
source is made when `err` is known to be nil, so it never fires. -/
def inspectCmd (env : Env) (log : List Event) (cmd : String) (lerr : String)
    (hard : Bool) : List Event × String × Option GoError :=
  let log0 := log ++ [Event.traceMsg "Inside inspectCmd"]
  let log1 := log0 ++ [Event.writePrompt (promptLine env cmd)]
  match env.sinkWrite log0 (promptLine env cmd) with
  | some e =>
      (log1 ++ [Event.traceMsg ("Failed to setup command, error was: " ++ e.Error)],
        "", some e)
  | none =>
      let log2 := log1 ++ [Event.start cmd]
      match env.start log1 cmd with
      | some e =>
          (log2 ++ [Event.traceMsg (env.timeStamp log2 ++ " - Failed to start command "
            ++ env.redact cmd ++ ", error was: " ++ e.Error)], "", some e)
      | none =>
          let log3 := log2 ++ [Event.traceMsg "Before runCmd.Wait()"]
          let res := env.wait log3 cmd
          let log4 := log3 ++ [Event.wait cmd]
          let done := (log4 ++ [Event.traceMsg "After runCmd.Wait()",
            Event.traceMsg "Non-error return from inspectCmd"], res.1, none)
          match res.2 with
          | some err =>
              match err with
              | GoError.exitError sys _ =>
                  match sys with
                  | some status =>
                      (log4 ++ [Event.traceMsg (env.timeStamp log4 ++ " - " ++ cmd
                        ++ " errored with exit status: " ++ toString status)], "", some err)
                  | none => done
              | _ =>
                  (log4 ++ [Event.traceMsg (env.timeStamp log4 ++ " - " ++ cmd
                    ++ " errored from Wait(): " ++ err.Error)], "", some err)
          | none => done

/-- The loop of `inspectCmds`: `n` iterations remain, the next index is `i`,
`ret` is the slice of results so far. -/
def inspectCmdsLoop (env : Env) (c : osCmds) :
    Nat → Nat → List Event → List String → Outcome (List String × Option GoError)
  | 0, _, log, ret => Outcome.ret log (ret, none)
  | n + 1, i, log, ret =>
      match c.cmds[i]? with
      | none => Outcome.panicked log
      | some cmd =>
          let log1 := log ++ [Event.traceMsg ("Current cmd: " ++ cmd)]
          match c.errmsg[i]?, c.hard[i]? with
          | some lerr, some h =>
              let r := inspectCmd env log1 cmd lerr h
              match r.2.2 with
              | some err =>
                  Outcome.ret
                    (r.1 ++ [Event.traceMsg (env.timeStamp r.1 ++ " - Command " ++ cmd
                      ++ " errored with " ++ lerr ++ ". Underlying error is "
                      ++ err.Error)])
                    (ret, some (GoError.errorString lerr))
              | none => inspectCmdsLoop env c n (i + 1) r.1 (ret ++ [r.2.1])
          | _, _ => Outcome.panicked log1

/-- The Go function `inspectCmds`; `make([]string, 1)` is the one-element
slice holding the empty string. -/
def inspectCmds (env : Env) (log : List Event) (c : osCmds) :
    Outcome (List String × Option GoError) :=
  inspectCmdsLoop env c c.cmds.length 0 (log ++ [Event.traceMsg "Inside inspectCmds"]) [""]

/-! ## Sample environments -/

/-- An environment in which every write succeeds and a command fails exactly
when its text is `"false"`: `CombinedOutput` and `Wait` then return an
`*exec.ExitError` with exit status 1.  A command of the form `echo X` prints
`X` and a newline. -/
def sampleEnv : Env where
  redact := fun s => s
  timeStamp := fun _ => "2006/01/02 15:04:05"
  sinkWrite := fun _ _ => none
  combinedOutput := fun _ cmd =>
    if cmd = "false" then ("", some (GoError.exitError (some 1) "exit status 1"))
    else if cmd = "echo A" then ("A\n", none)
    else if cmd = "echo B" then ("B\n", none)
    else ("", none)
  start := fun _ _ => none
  wait := fun _ cmd =>
    if cmd = "false" then ("", some (GoError.exitError (some 1) "exit status 1"))
    else if cmd = "echo A" then ("A\n", none)
    else if cmd = "echo B" then ("B\n", none)
    else ("", none)

/-- As `sampleEnv`, but every write to the sink is refused. -/
def closedSinkEnv : Env where
  redact := sampleEnv.redact
  timeStamp := sampleEnv.timeStamp
  sinkWrite := fun _ _ => some (GoError.other "write: file already closed")
  combinedOutput := sampleEnv.combinedOutput
  start := sampleEnv.start
  wait := sampleEnv.wait

/-! ## Sample command sets -/

/-- A three-command set whose second command is hard and fails. -/
def gateCmds : osCmds :=
  buildCmds "ubuntu:18.04"
    [("echo A", "first", false), ("false", "gate", true), ("echo B", "last", false)]

/-- A two-command set with soft commands only, the first of which fails. -/
def softCmds : osCmds :=
  buildCmds "ubuntu:18.04" [("false", "first", false), ("echo A", "second", false)]

/-- The two-command set `echo A`, `echo B`, both soft. -/
def echoCmds : osCmds :=
  buildCmds "ubuntu:18.04" [("echo A", "first", false), ("echo B", "second", false)]

/-- A two-command set whose second command fails. -/
def brokenCmds : osCmds :=
  buildCmds "ubuntu:18.04" [("echo A", "first", false), ("false", "boom", false)]

/-! ## Intermediate logs of the batch runners -/

/-- The value returned by a computation that returns. -/
def Outcome.val? {α : Type} : Outcome α → Option α
  | Outcome.ret _ v => some v
  | Outcome.exited _ _ => none
  | Outcome.panicked _ => none

/-- The log when `runCmds` reaches index `i`, every earlier `sendCmd` having
returned. -/
def runLogAt (env : Env) (log : List Event) (c : osCmds) : Nat → List Event
  | 0 => log
  | i + 1 =>
      (sendCmd env (runLogAt env log c i) (c.cmds.getD i "") (c.errmsg.getD i "")
        (c.hard.getD i false)).log

/-- Whether `CombinedOutput` returns an error when `sendCmd` is called on
`cmd` with log `log`. -/
def execFails (env : Env) (log : List Event) (cmd : String) : Bool :=
  (env.combinedOutput (sendCmdSetup env log cmd) cmd).2.isSome

/-- The log when `tryCmds` reaches index `i`, every earlier `tryCmd` having
returned no error. -/
def tryLogAt (env : Env) (log : List Event) (c : osCmds) : Nat → List Event
  | 0 => log
  | i + 1 =>
      (tryCmd env (tryLogAt env log c i) (c.cmds.getD i "") (c.errmsg.getD i "")
        (c.hard.getD i false)).1

/-- The error returned by `tryCmd` for command `i` of a `tryCmds` run. -/
def tryErrAt (env : Env) (log : List Event) (c : osCmds) (i : Nat) : Option GoError :=
  (tryCmd env (tryLogAt env log c i) (c.cmds.getD i "") (c.errmsg.getD i "")
    (c.hard.getD i false)).2

/-- Whether the prompt write of command `i` of a `tryCmds` run is refused. -/
def tryPromptRefused (env : Env) (log : List Event) (c : osCmds) (i : Nat) : Bool :=
  (env.sinkWrite (tryLogAt env log c i ++ [Event.traceMsg "Entering tryCmd"])
    (promptLine env (c.cmds.getD i ""))).isSome

/-- The log when `inspectCmds` reaches index `i`, every earlier `inspectCmd`
having returned no error. -/
def inspectLogAt (env : Env) (log : List Event) (c : osCmds) : Nat → List Event
  | 0 => log ++ [Event.traceMsg "Inside inspectCmds"]
  | i + 1 =>
      (inspectCmd env
        (inspectLogAt env log c i ++ [Event.traceMsg ("Current cmd: " ++ c.cmds.getD i "")])
        (c.cmds.getD i "") (c.errmsg.getD i "") (c.hard.getD i false)).1

/-- The result of `inspectCmd` for command `i` of an `inspectCmds` run. -/
def inspectResAt (env : Env) (log : List Event) (c : osCmds) (i : Nat) :
    List Event × String × Option GoError :=
  inspectCmd env
    (inspectLogAt env log c i ++ [Event.traceMsg ("Current cmd: " ++ c.cmds.getD i "")])
    (c.cmds.getD i "") (c.errmsg.getD i "") (c.hard.getD i false)

/-- The contents of the standard-output buffer of command `i` of an
`inspectCmds` run when its `Wait` returns. -/
def capturedStdout (env : Env) (log : List Event) (c : osCmds) (i : Nat) : String :=
  (env.wait
    (inspectLogAt env log c i ++ [Event.traceMsg ("Current cmd: " ++ c.cmds.getD i ""),
      Event.traceMsg "Inside inspectCmd",
      Event.writePrompt (promptLine env (c.cmds.getD i "")),
      Event.start (c.cmds.getD i ""),
      Event.traceMsg "Before runCmd.Wait()"])
    (c.cmds.getD i "")).1

/-- The log of `sendCmd` after a prompt write refused with error `e` has been
reported with `errorMsg`. -/
def refusedSetupLog (env : Env) (log : List Event) (cmd : String) (e : GoError) :
    List Event :=
  log ++ [Event.writePrompt (promptLine env cmd),
    Event.errorMsg ("Failed to setup command, error was: " ++ e.Error)]

/-- Whether a result of `Wait` is one that `os/exec` produces: the error of a
child that exited non-zero is an `*exec.ExitError` whose `Sys()` value is a
`syscall.WaitStatus` on every platform on which `runner.go` compiles, so the
type assertion on it succeeds. -/
def statusInspectable : Option GoError → Bool
  | some (GoError.exitError none _) => false
  | _ => true

/-! ## Basic facts -/

theorem getElem?_eq_some_getD {α : Type} (l : List α) (i : Nat) (d : α)
    (h : i < l.length) : l[i]? = some (l.getD i d) := by
  rw [List.getD_eq_getElem?_getD, List.getElem?_eq_getElem h]
  rfl

@[simp] theorem launched_append (l₁ l₂ : List Event) :
    launched (l₁ ++ l₂) = launched l₁ ++ launched l₂ := by
  induction l₁ with
  | nil => rfl
  | cons e es ih => cases e <;> simp [launched, ih]

@[simp] theorem prompts_append (l₁ l₂ : List Event) :
    prompts (l₁ ++ l₂) = prompts l₁ ++ prompts l₂ := by
  induction l₁ with
  | nil => rfl
  | cons e es ih => cases e <;> simp [prompts, ih]

@[simp] theorem outputs_append (l₁ l₂ : List Event) :
    outputs (l₁ ++ l₂) = outputs l₁ ++ outputs l₂ := by
  induction l₁ with
  | nil => rfl
  | cons e es ih => cases e <;> simp [outputs, ih]

/-- The shape of every built command set: `hard` is as long as `cmds`, and
`errmsg` is either empty together with `cmds` or is `cmds` followed by the
last message. -/
theorem built_shape (c : osCmds) (h : Built c) :
    c.hard.length = c.cmds.length ∧
      ((c.cmds = [] ∧ c.errmsg = []) ∨ ∃ m, c.errmsg = c.cmds ++ [m]) := by
  induction h with
  | new d => exact ⟨rfl, Or.inl ⟨rfl, rfl⟩⟩
  | add o cmd lerr hard _ ih =>
      refine ⟨?_, Or.inr ⟨lerr, rfl⟩⟩
      simp [addCmd, ih.1]

/-- In a built command set, the slot of `errmsg` at an index of `cmds` holds
the command text of that index. -/
theorem built_errmsg_eq_cmds (c : osCmds) (h : Built c) (i : Nat) (hi : i < c.cmds.length) :
    c.errmsg[i]? = c.cmds[i]? := by
  rcases (built_shape c h).2 with ⟨hc, _⟩ | ⟨m, hm⟩
  · rw [hc] at hi
    exact absurd hi (by simp)
  · rw [hm, List.getElem?_append_left hi]

theorem built_wellIndexed (c : osCmds) (h : Built c) : WellIndexed c := by
  obtain ⟨hh, he⟩ := built_shape c h
  refine ⟨?_, by omega⟩
  rcases he with ⟨hc, _⟩ | ⟨m, hm⟩
  · simp [hc]
  · simp [hm]

theorem built_buildCmds (d : String) (items : List (String × String × Bool)) :
    Built (buildCmds d items) := by
  have key : ∀ (its : List (String × String × Bool)) (o : osCmds), Built o →
      Built (its.foldl (fun o it => addCmd o it.1 it.2.1 it.2.2) o) := by
    intro its
    induction its with
    | nil => intro o ho; exact ho
    | cons it rest ih => intro o ho; exact ih _ (Built.add o _ _ _ ho)
  exact key items _ (Built.new d)

/-! ## Facts about `sendCmd` and `runCmds` -/

theorem launched_sendCmdSetup (env : Env) (log : List Event) (cmd : String) :
    launched (sendCmdSetup env log cmd) = launched log := by
  unfold sendCmdSetup
  split <;> simp [launched]

theorem prompts_sendCmdSetup (env : Env) (log : List Event) (cmd : String) :
    prompts (sendCmdSetup env log cmd) = prompts log ++ [promptLine env cmd] := by
  unfold sendCmdSetup
  split <;> simp [prompts]

theorem outputs_sendCmdSetup (env : Env) (log : List Event) (cmd : String) :
    outputs (sendCmdSetup env log cmd) = outputs log := by
  unfold sendCmdSetup
  split <;> simp [outputs]

theorem launched_sendCmdFinish (env : Env) (log : List Event) (out : String) :
    launched (sendCmdFinish env log out) = launched log := by
  unfold sendCmdFinish
  split <;> simp [launched]

theorem prompts_sendCmdFinish (env : Env) (log : List Event) (out : String) :
    prompts (sendCmdFinish env log out) = prompts log := by
  unfold sendCmdFinish
  split <;> simp [prompts]

theorem outputs_sendCmdFinish (env : Env) (log : List Event) (out : String) :
    outputs (sendCmdFinish env log out) = outputs log ++ [out] := by
  unfold sendCmdFinish
  split <;> simp [outputs]

theorem launched_sendCmd (env : Env) (log : List Event) (cmd lerr : String) (hard : Bool) :
    launched (sendCmd env log cmd lerr hard).log = launched log ++ [cmd] := by
  unfold sendCmd
  cases hard <;> (simp only []; split) <;>
    simp [Outcome.log, launched, launched_sendCmdFinish, launched_sendCmdSetup]

theorem prompts_sendCmd (env : Env) (log : List Event) (cmd lerr : String) (hard : Bool) :
    prompts (sendCmd env log cmd lerr hard).log = prompts log ++ [promptLine env cmd] := by
  unfold sendCmd
  cases hard <;> (simp only []; split) <;>
    simp [Outcome.log, prompts, prompts_sendCmdFinish, prompts_sendCmdSetup]

/-- Unless the command is hard and its run fails, `sendCmd` returns, and it
has then requested one write of captured output. -/
theorem sendCmd_returns (env : Env) (log : List Event) (cmd lerr : String) (hard : Bool)
    (h : ¬ (hard = true ∧ execFails env log cmd = true)) :
    sendCmd env log cmd lerr hard = Outcome.ret (sendCmd env log cmd lerr hard).log () ∧
      (outputs (sendCmd env log cmd lerr hard).log).length = (outputs log).length + 1 := by
  unfold execFails at h
  unfold sendCmd
  cases hard
  · simp only []
    split <;>
      simp [Outcome.log, outputs, outputs_sendCmdFinish, outputs_sendCmdSetup]
  · simp only []
    split
    · rename_i e he
      simp [he] at h
    · simp [Outcome.log, outputs, outputs_sendCmdFinish, outputs_sendCmdSetup]

/-- A hard command whose run fails makes `sendCmd` exit with status 1 right
after the failure is reported. -/
theorem sendCmd_exits (env : Env) (log : List Event) (cmd lerr : String)
    (h : execFails env log cmd = true) :
    ∃ msg, sendCmd env log cmd lerr true =
      Outcome.exited
        (sendCmdSetup env log cmd ++ [Event.combinedOutput cmd, Event.errorMsg msg]) 1 := by
  unfold execFails at h
  unfold sendCmd
  simp only []
  split
  · rename_i e he
    exact ⟨env.timeStamp (sendCmdSetup env log cmd ++ [Event.combinedOutput cmd])
      ++ " - Failed to run OS command " ++ env.redact cmd ++ ", error was: " ++ e.Error,
      by simp⟩
  · rename_i he
    simp [he] at h

theorem take_succ_getD (l : List String) (i : Nat) (h : i < l.length) :
    l.take (i + 1) = l.take i ++ [l.getD i ""] := by
  rw [List.take_succ, getElem?_eq_some_getD l i "" h]
  rfl

theorem launched_runLogAt (env : Env) (log : List Event) (c : osCmds) :
    ∀ i, i ≤ c.cmds.length →
      launched (runLogAt env log c i) = launched log ++ c.cmds.take i := by
  intro i
  induction i with
  | zero => intro _; simp [runLogAt]
  | succ i ih =>
      intro hi
      rw [runLogAt, launched_sendCmd, ih (by omega), take_succ_getD _ _ (by omega)]
      simp

theorem prompts_runLogAt (env : Env) (log : List Event) (c : osCmds) :
    ∀ i, i ≤ c.cmds.length →
      prompts (runLogAt env log c i) =
        prompts log ++ (c.cmds.take i).map (promptLine env) := by
  intro i
  induction i with
  | zero => intro _; simp [runLogAt]
  | succ i ih =>
      intro hi
      rw [runLogAt, prompts_sendCmd, ih (by omega), take_succ_getD _ _ (by omega)]
      simp

/-- One iteration of the loop of `runCmds` at an index in range. -/
theorem runCmdsLoop_step (env : Env) (c : osCmds) (n i : Nat) (log : List Event)
    (hc : i < c.cmds.length) (he : i < c.errmsg.length) (hh : i < c.hard.length) :
    runCmdsLoop env c (n + 1) i log =
      match sendCmd env log (c.cmds.getD i "") (c.errmsg.getD i "") (c.hard.getD i false) with
      | Outcome.ret log1 _ => runCmdsLoop env c n (i + 1) log1
      | Outcome.exited log1 code => Outcome.exited log1 code
      | Outcome.panicked log1 => Outcome.panicked log1 := by
  rw [runCmdsLoop, getElem?_eq_some_getD c.cmds i "" hc, getElem?_eq_some_getD c.errmsg i "" he,
    getElem?_eq_some_getD c.hard i false hh]

/-- As long as no hard command fails, the loop of `runCmds` advances. -/
theorem runCmdsLoop_skip (env : Env) (log : List Event) (c : osCmds) (k : Nat)
    (hk : k ≤ c.cmds.length) (he : k ≤ c.errmsg.length) (hh : k ≤ c.hard.length)
    (hret : ∀ j, j < k → ¬ (c.hard.getD j false = true ∧
      execFails env (runLogAt env log c j) (c.cmds.getD j "") = true)) :
    ∀ d i, i + d = k →
      runCmdsLoop env c (c.cmds.length - i) i (runLogAt env log c i) =
        runCmdsLoop env c (c.cmds.length - k) k (runLogAt env log c k) ∧
      (outputs (runLogAt env log c k)).length = (outputs (runLogAt env log c i)).length + d := by
  intro d
  induction d with
  | zero => intro i hi; simp at hi; subst hi; simp
  | succ d ih =>
      intro i hi
      have hlen : c.cmds.length - i = (c.cmds.length - (i + 1)) + 1 := by omega
      have hs := sendCmd_returns env (runLogAt env log c i) (c.cmds.getD i "")
        (c.errmsg.getD i "") (c.hard.getD i false) (hret i (by omega))
      obtain ⟨ih1, ih2⟩ := ih (i + 1) (by omega)
      refine ⟨?_, ?_⟩
      · rw [hlen, runCmdsLoop_step env c _ i _ (by omega) (by omega) (by omega), hs.1]
        exact ih1
      · rw [ih2, runLogAt, hs.2]
        omega

/-! ## The best-effort runner -/

/-- C6: in `runCmds`, if command `k` is hard and its `CombinedOutput` fails,
and no earlier command is a failing hard command, then the run ends in
`os.Exit` with a non-zero status; the log ends with the failed
`CombinedOutput` of command `k` and the report of the failure; processes were
launched for commands `0..k` only, prompt lines were written for commands
`0..k` only, and captured output was written for the `k` earlier commands
only, not for command `k`. -/
theorem runCmds_exits_at_hard_failure (env : Env) (log : List Event) (c : osCmds) (k : Nat)
    (hk : k < c.cmds.length) (he : k < c.errmsg.length)
    (hhard : c.hard[k]? = some true)
    (hfail : execFails env (runLogAt env log c k) (c.cmds.getD k "") = true)
    (hfirst : ∀ j, j < k → ¬ (c.hard.getD j false = true ∧
      execFails env (runLogAt env log c j) (c.cmds.getD j "") = true)) :
    ∃ log' code msg, runCmds env log c = Outcome.exited log' code ∧ code ≠ 0 ∧
      log' = sendCmdSetup env (runLogAt env log c k) (c.cmds.getD k "") ++
        [Event.combinedOutput (c.cmds.getD k ""), Event.errorMsg msg] ∧
      launched log' = launched log ++ c.cmds.take (k + 1) ∧
      prompts log' = prompts log ++ (c.cmds.take (k + 1)).map (promptLine env) ∧
      (outputs log').length = (outputs log).length + k := by
  have hh : k < c.hard.length := by
    by_contra hcon
    rw [List.getElem?_eq_none (by omega)] at hhard
    exact Option.noConfusion hhard
  have hgetD : c.hard.getD k false = true := by
    rw [List.getD_eq_getElem?_getD, hhard]
    rfl
  obtain ⟨hskip, hout⟩ := runCmdsLoop_skip env log c k (by omega) (by omega) (by omega) hfirst
    k 0 (by omega)
  obtain ⟨msg, hexit⟩ := sendCmd_exits env (runLogAt env log c k) (c.cmds.getD k "")
    (c.errmsg.getD k "") hfail
  have hlen : c.cmds.length - k = (c.cmds.length - (k + 1)) + 1 := by omega
  refine ⟨_, 1, msg, ?_, by decide, rfl, ?_, ?_, ?_⟩
  · unfold runCmds
    have h0 := hskip
    simp only [Nat.sub_zero, runLogAt] at h0
    rw [h0, hlen, runCmdsLoop_step env c _ k _ hk he hh, hgetD, hexit]
  · rw [launched_append, launched_sendCmdSetup, launched_runLogAt env log c k (by omega),
      take_succ_getD _ _ hk]
    simp [launched]
  · rw [prompts_append, prompts_sendCmdSetup, prompts_runLogAt env log c k (by omega),
      take_succ_getD _ _ hk]
    simp [prompts]
  · rw [outputs_append, outputs_sendCmdSetup, List.length_append, hout]
    simp [outputs, runLogAt]

/-- An instance of the preceding theorem on `gateCmds` with `k = 1`. -/
theorem runCmds_exits_at_hard_failure_witness :
    ∃ log' code msg, runCmds sampleEnv [] gateCmds = Outcome.exited log' code ∧ code ≠ 0 ∧
      log' = sendCmdSetup sampleEnv (runLogAt sampleEnv [] gateCmds 1)
          (gateCmds.cmds.getD 1 "") ++
        [Event.combinedOutput (gateCmds.cmds.getD 1 ""), Event.errorMsg msg] ∧
      launched log' = launched [] ++ gateCmds.cmds.take (1 + 1) ∧
      prompts log' = prompts [] ++ (gateCmds.cmds.take (1 + 1)).map (promptLine sampleEnv) ∧
      (outputs log').length = (outputs []).length + 1 :=
  runCmds_exits_at_hard_failure sampleEnv [] gateCmds 1 (by decide) (by decide) (by decide)
    (by decide) (by decide)

/-- C7: in `runCmds`, if every command is soft (`hard = false`), then
whatever the environment answers the run returns normally (no `os.Exit`, no
run-time failure; `runCmds` has no error result), a process launch is
requested for every command of the set exactly once in set order, and the
write of the prompt line of every command is issued to the sink in that
order. -/
theorem runCmds_soft_runs_all (env : Env) (log : List Event) (c : osCmds)
    (he : c.cmds.length ≤ c.errmsg.length)
    (hsoft : ∀ i, i < c.cmds.length → c.hard[i]? = some false) :
    ∃ log', runCmds env log c = Outcome.ret log' () ∧
      launched log' = launched log ++ c.cmds ∧
      prompts log' = prompts log ++ c.cmds.map (promptLine env) := by
  have hh : c.cmds.length ≤ c.hard.length := by
    by_contra hcon
    have h1 := hsoft c.hard.length (by omega)
    rw [List.getElem?_eq_none (le_refl _)] at h1
    exact Option.noConfusion h1
  have hret : ∀ j, j < c.cmds.length → ¬ (c.hard.getD j false = true ∧
      execFails env (runLogAt env log c j) (c.cmds.getD j "") = true) := by
    intro j hj hcon
    have h1 : c.hard.getD j false = false := by
      rw [List.getD_eq_getElem?_getD, hsoft j hj]
      rfl
    rw [h1] at hcon
    exact Bool.noConfusion hcon.1
  obtain ⟨hskip, _⟩ := runCmdsLoop_skip env log c c.cmds.length (le_refl _) he hh hret
    c.cmds.length 0 (by omega)
  refine ⟨runLogAt env log c c.cmds.length, ?_, ?_, ?_⟩
  · unfold runCmds
    have h0 := hskip
    simp only [Nat.sub_zero, Nat.sub_self, runLogAt] at h0
    rw [h0, runCmdsLoop]
  · rw [launched_runLogAt env log c _ (le_refl _), List.take_length]
  · rw [prompts_runLogAt env log c _ (le_refl _), List.take_length]

/-- An instance of the preceding theorem on `softCmds`, whose first command fails. -/
theorem runCmds_soft_runs_all_witness :
    ∃ log', runCmds sampleEnv [] softCmds = Outcome.ret log' () ∧
      launched log' = launched [] ++ softCmds.cmds ∧
      prompts log' = prompts [] ++ softCmds.cmds.map (promptLine sampleEnv) :=
  runCmds_soft_runs_all sampleEnv [] softCmds (by decide) (by decide)

/-! ## Facts about `tryCmd` and `tryCmds` -/

/-- The message and the hard flag are not used by `tryCmd`. -/
theorem tryCmd_ignores (env : Env) (log : List Event) (cmd lerr lerr' : String)
    (hard hard' : Bool) :
    tryCmd env log cmd lerr hard = tryCmd env log cmd lerr' hard' := rfl

theorem prompts_tryCmd (env : Env) (log : List Event) (cmd lerr : String) (hard : Bool) :
    prompts (tryCmd env log cmd lerr hard).1 = prompts log ++ [promptLine env cmd] := by
  unfold tryCmd
  simp only []
  repeat' split
  all_goals simp [prompts]

theorem launched_tryCmd (env : Env) (log : List Event) (cmd lerr : String) (hard : Bool) :
    launched (tryCmd env log cmd lerr hard).1 = launched log ++
      (if (env.sinkWrite (log ++ [Event.traceMsg "Entering tryCmd"])
          (promptLine env cmd)).isSome then [] else [cmd]) := by
  unfold tryCmd
  simp only []
  split
  · rename_i e he
    simp [he, launched]
  · rename_i he
    rw [he]
    simp only [Option.isSome_none, Bool.false_eq_true, if_false]
    repeat' split
    all_goals simp [launched]

theorem tryCmd_ok_write (env : Env) (log : List Event) (cmd lerr : String) (hard : Bool)
    (h : (tryCmd env log cmd lerr hard).2 = none) :
    (env.sinkWrite (log ++ [Event.traceMsg "Entering tryCmd"])
      (promptLine env cmd)).isSome = false := by
  unfold tryCmd at h
  simp only [] at h
  split at h
  · exact Option.noConfusion h
  · rename_i he
    rw [he]
    rfl

theorem prompts_tryLogAt (env : Env) (log : List Event) (c : osCmds) :
    ∀ i, i ≤ c.cmds.length →
      prompts (tryLogAt env log c i) =
        prompts log ++ (c.cmds.take i).map (promptLine env) := by
  intro i
  induction i with
  | zero => intro _; simp [tryLogAt]
  | succ i ih =>
      intro hi
      rw [tryLogAt, prompts_tryCmd, ih (by omega), take_succ_getD _ _ (by omega)]
      simp

theorem launched_tryLogAt (env : Env) (log : List Event) (c : osCmds) :
    ∀ i, i ≤ c.cmds.length → (∀ j, j < i → tryErrAt env log c j = none) →
      launched (tryLogAt env log c i) = launched log ++ c.cmds.take i := by
  intro i
  induction i with
  | zero => intro _ _; simp [tryLogAt]
  | succ i ih =>
      intro hi hok
      have hw := tryCmd_ok_write env (tryLogAt env log c i) (c.cmds.getD i "")
        (c.errmsg.getD i "") (c.hard.getD i false) (hok i (by omega))
      rw [tryLogAt, launched_tryCmd, hw, ih (by omega) (fun j hj => hok j (by omega)),
        take_succ_getD _ _ (by omega)]
      simp

/-- One iteration of the loop of `tryCmds` at an index in range. -/
theorem tryCmdsLoop_step (env : Env) (c : osCmds) (n i : Nat) (log : List Event)
    (hc : i < c.cmds.length) (he : i < c.errmsg.length) (hh : i < c.hard.length) :
    tryCmdsLoop env c (n + 1) i log =
      match (tryCmd env log (c.cmds.getD i "") (c.errmsg.getD i "")
          (c.hard.getD i false)).2 with
      | some err =>
          Outcome.ret
            ((tryCmd env log (c.cmds.getD i "") (c.errmsg.getD i "")
                (c.hard.getD i false)).1 ++
              [Event.traceMsg (env.timeStamp (tryCmd env log (c.cmds.getD i "")
                  (c.errmsg.getD i "") (c.hard.getD i false)).1 ++ " - Command "
                ++ c.cmds.getD i "" ++ " errored with " ++ c.errmsg.getD i ""
                ++ ". Underlying error is " ++ err.Error)])
            (some (GoError.errorString (c.errmsg.getD i "")))
      | none =>
          tryCmdsLoop env c n (i + 1)
            (tryCmd env log (c.cmds.getD i "") (c.errmsg.getD i "")
              (c.hard.getD i false)).1 := by
  rw [tryCmdsLoop, getElem?_eq_some_getD c.cmds i "" hc, getElem?_eq_some_getD c.errmsg i "" he,
    getElem?_eq_some_getD c.hard i false hh]

/-- As long as `tryCmd` returns no error, the loop of `tryCmds` advances. -/
theorem tryCmdsLoop_skip (env : Env) (log : List Event) (c : osCmds) (k : Nat)
    (hk : k ≤ c.cmds.length) (he : k ≤ c.errmsg.length) (hh : k ≤ c.hard.length)
    (hok : ∀ j, j < k → tryErrAt env log c j = none) :
    ∀ d i, i + d = k →
      tryCmdsLoop env c (c.cmds.length - i) i (tryLogAt env log c i) =
        tryCmdsLoop env c (c.cmds.length - k) k (tryLogAt env log c k) := by
  intro d
  induction d with
  | zero => intro i hi; simp at hi; subst hi; rfl
  | succ d ih =>
      intro i hi
      have hlen : c.cmds.length - i = (c.cmds.length - (i + 1)) + 1 := by omega
      have hj := hok i (by omega)
      unfold tryErrAt at hj
      rw [hlen, tryCmdsLoop_step env c _ i _ (by omega) (by omega) (by omega), hj]
      exact ih (i + 1) (by omega)

/-- The result of `tryCmds` does not depend on the hard flags. -/
theorem tryCmdsLoop_hard_irrelevant (env : Env) (c c' : osCmds) (hc : c'.cmds = c.cmds)
    (he : c'.errmsg = c.errmsg) (hh : c'.hard.length = c.hard.length) :
    ∀ n i log, tryCmdsLoop env c' n i log = tryCmdsLoop env c n i log := by
  intro n
  induction n with
  | zero => intro i log; rfl
  | succ n ih =>
      intro i log
      rw [tryCmdsLoop, tryCmdsLoop, hc, he]
      by_cases hi : i < c.hard.length
      · have h1 : c.hard[i]? = some (c.hard.getD i false) := getElem?_eq_some_getD _ _ _ hi
        have h2 : c'.hard[i]? = some (c'.hard.getD i false) :=
          getElem?_eq_some_getD _ _ _ (by omega)
        rw [h1, h2]
        cases c.cmds[i]? with
        | none => rfl
        | some cmd =>
            cases c.errmsg[i]? with
            | none => rfl
            | some lerr =>
                simp only []
                rw [tryCmd_ignores env log cmd lerr lerr (c'.hard.getD i false)
                  (c.hard.getD i false)]
                split
                · rfl
                · exact ih _ _
      · have h1 : c.hard[i]? = none := List.getElem?_eq_none (by omega)
        have h2 : c'.hard[i]? = none := List.getElem?_eq_none (by omega)
        rw [h1, h2]
        cases c.cmds[i]? <;> cases c.errmsg[i]? <;> rfl

/-! ## The fail-fast runner -/

/-- C3, counterexample: with a sink that refuses every write, command `0` of
`gateCmds` is the first command for which `tryCmd` returns an error, `tryCmds`
returns an error, and no process has been started: command `0` itself is not
executed. -/
theorem tryCmds_refused_prompt_starts_nothing :
    tryErrAt closedSinkEnv [] gateCmds 0 ≠ none ∧
      (tryCmds closedSinkEnv [] gateCmds).val? =
        some (some (GoError.errorString (gateCmds.errmsg.getD 0 ""))) ∧
      launched (tryCmds closedSinkEnv [] gateCmds).log = [] ∧
      gateCmds.cmds.take (0 + 1) = ["echo A"] ∧
      launched (tryCmds closedSinkEnv [] gateCmds).log ≠ gateCmds.cmds.take (0 + 1) := by
  decide

/-- C3, amended: in `tryCmds`, if command `k` is the first for which `tryCmd` returns
an error, then the run returns an error and its log is the log of running
`tryCmd` on the commands `0..k`, once each and in order, followed by one trace
line: one prompt line for each of the commands `0..k` and none for a later
command; processes started for the commands `0..k-1` and for command `k`
(unless its prompt write was refused, in which case `tryCmd` returns before
the start), and for no later command.  A command set that differs only in its
hard flags gives the same result and the same log. -/
theorem tryCmds_stops_at_first_failure (env : Env) (log : List Event) (c : osCmds) (k : Nat)
    (hk : k < c.cmds.length) (he : k < c.errmsg.length) (hh : k < c.hard.length)
    (hok : ∀ j, j < k → tryErrAt env log c j = none)
    (hfail : tryErrAt env log c k ≠ none) :
    ∃ log' msg, tryCmds env log c =
        Outcome.ret log' (some (GoError.errorString (c.errmsg.getD k ""))) ∧
      log' = tryLogAt env log c (k + 1) ++ [Event.traceMsg msg] ∧
      prompts log' = prompts log ++ (c.cmds.take (k + 1)).map (promptLine env) ∧
      launched log' = launched log ++ c.cmds.take k ++
        (if tryPromptRefused env log c k then [] else [c.cmds.getD k ""]) ∧
      ∀ c', c'.cmds = c.cmds → c'.errmsg = c.errmsg → c'.hard.length = c.hard.length →
        tryCmds env log c' = tryCmds env log c := by
  have hskip := tryCmdsLoop_skip env log c k (by omega) (by omega) (by omega) hok k 0 (by omega)
  simp only [Nat.sub_zero, tryLogAt] at hskip
  have hlen : c.cmds.length - k = (c.cmds.length - (k + 1)) + 1 := by omega
  cases herr : tryErrAt env log c k with
  | none => exact absurd herr hfail
  | some err =>
      have herr' := herr
      unfold tryErrAt at herr'
      refine ⟨tryLogAt env log c (k + 1) ++
        [Event.traceMsg (env.timeStamp (tryLogAt env log c (k + 1)) ++ " - Command "
          ++ c.cmds.getD k "" ++ " errored with " ++ c.errmsg.getD k ""
          ++ ". Underlying error is " ++ err.Error)], _, ?_, rfl, ?_, ?_, ?_⟩
      · unfold tryCmds
        rw [hskip, hlen, tryCmdsLoop_step env c _ k _ hk he hh, herr']
        rfl
      · rw [prompts_append, tryLogAt, prompts_tryCmd, prompts_tryLogAt env log c k (by omega),
          take_succ_getD _ _ hk]
        simp [prompts]
      · rw [launched_append, tryLogAt, launched_tryCmd,
          launched_tryLogAt env log c k (by omega) hok]
        simp [launched, tryPromptRefused]
      · intro c' hc he' hh'
        unfold tryCmds
        rw [hc]
        exact tryCmdsLoop_hard_irrelevant env c c' hc he' hh' _ _ _

/-- Two instances of the preceding theorem on `gateCmds`: with `k = 1`, the
second command exiting non-zero, and with `k = 0`, the sink refusing the
prompt write of the first command. -/
theorem tryCmds_stops_at_first_failure_witness :
    (∃ log' msg, tryCmds sampleEnv [] gateCmds =
        Outcome.ret log' (some (GoError.errorString (gateCmds.errmsg.getD 1 ""))) ∧
      log' = tryLogAt sampleEnv [] gateCmds (1 + 1) ++ [Event.traceMsg msg] ∧
      prompts log' = prompts [] ++ (gateCmds.cmds.take (1 + 1)).map (promptLine sampleEnv) ∧
      launched log' = launched [] ++ gateCmds.cmds.take 1 ++
        (if tryPromptRefused sampleEnv [] gateCmds 1 then [] else [gateCmds.cmds.getD 1 ""]) ∧
      ∀ c', c'.cmds = gateCmds.cmds → c'.errmsg = gateCmds.errmsg →
        c'.hard.length = gateCmds.hard.length →
        tryCmds sampleEnv [] c' = tryCmds sampleEnv [] gateCmds) ∧
    (∃ log' msg, tryCmds closedSinkEnv [] gateCmds =
        Outcome.ret log' (some (GoError.errorString (gateCmds.errmsg.getD 0 ""))) ∧
      log' = tryLogAt closedSinkEnv [] gateCmds (0 + 1) ++ [Event.traceMsg msg] ∧
      prompts log' =
        prompts [] ++ (gateCmds.cmds.take (0 + 1)).map (promptLine closedSinkEnv) ∧
      launched log' = launched [] ++ gateCmds.cmds.take 0 ++
        (if tryPromptRefused closedSinkEnv [] gateCmds 0 then []
          else [gateCmds.cmds.getD 0 ""]) ∧
      ∀ c', c'.cmds = gateCmds.cmds → c'.errmsg = gateCmds.errmsg →
        c'.hard.length = gateCmds.hard.length →
        tryCmds closedSinkEnv [] c' = tryCmds closedSinkEnv [] gateCmds) :=
  ⟨tryCmds_stops_at_first_failure sampleEnv [] gateCmds 1 (by decide) (by decide) (by decide)
      (by decide) (by decide),
    tryCmds_stops_at_first_failure closedSinkEnv [] gateCmds 0 (by decide) (by decide)
      (by decide) (by decide) (by decide)⟩

/-- C2: on the one-command set built by `addCmd o "false" "boom" false`, with
the command failing, `tryCmds` returns an error whose text is `"false"`, the
command text, and not `"boom"`, the message passed to `addCmd`; the slot of
`errmsg` read by `tryCmds` holds the command text. -/
theorem tryCmds_error_is_command_text :
    (tryCmds sampleEnv [] (addCmd (newCmds "ubuntu:18.04") "false" "boom" false)).val? =
        some (some (GoError.errorString "false")) ∧
      (addCmd (newCmds "ubuntu:18.04") "false" "boom" false).errmsg[0]? = some "false" ∧
      GoError.errorString "false" ≠ GoError.errorString "boom" := by
  decide

/-- C1: after one `addCmd` on a new set, `cmds` and `hard` have one element
and `errmsg` has two: the command text followed by the message. -/
theorem addCmd_lengths_differ :
    (addCmd (newCmds "ubuntu:18.04") "apt update" "Unable to update" true).cmds.length = 1 ∧
      (addCmd (newCmds "ubuntu:18.04") "apt update" "Unable to update" true).hard.length = 1 ∧
      (addCmd (newCmds "ubuntu:18.04") "apt update" "Unable to update" true).errmsg =
        ["apt update", "Unable to update"] := by
  decide

/-! ## Facts about `inspectCmd` and `inspectCmds` -/

/-- When `inspectCmd` returns no error, the string it returns is the content
of the standard-output buffer at the return of `Wait`. -/
theorem inspectCmd_ok_out (env : Env) (log : List Event) (cmd lerr : String) (hard : Bool)
    (h : (inspectCmd env log cmd lerr hard).2.2 = none) :
    (inspectCmd env log cmd lerr hard).2.1 =
      (env.wait (log ++ [Event.traceMsg "Inside inspectCmd",
        Event.writePrompt (promptLine env cmd), Event.start cmd,
        Event.traceMsg "Before runCmd.Wait()"]) cmd).1 := by
  unfold inspectCmd at h ⊢
  simp only [] at h ⊢
  repeat' split at h
  all_goals first
    | exact Option.noConfusion h
    | (simp only [List.append_assoc, List.singleton_append, List.cons_append,
        List.nil_append, *])

/-- One iteration of the loop of `inspectCmds` at an index in range. -/
theorem inspectCmdsLoop_step (env : Env) (c : osCmds) (n i : Nat) (log : List Event)
    (ret : List String)
    (hc : i < c.cmds.length) (he : i < c.errmsg.length) (hh : i < c.hard.length) :
    inspectCmdsLoop env c (n + 1) i log ret =
      match (inspectCmd env (log ++ [Event.traceMsg ("Current cmd: " ++ c.cmds.getD i "")])
          (c.cmds.getD i "") (c.errmsg.getD i "") (c.hard.getD i false)).2.2 with
      | some err =>
          Outcome.ret
            ((inspectCmd env (log ++ [Event.traceMsg ("Current cmd: " ++ c.cmds.getD i "")])
                (c.cmds.getD i "") (c.errmsg.getD i "") (c.hard.getD i false)).1 ++
              [Event.traceMsg (env.timeStamp (inspectCmd env
                  (log ++ [Event.traceMsg ("Current cmd: " ++ c.cmds.getD i "")])
                  (c.cmds.getD i "") (c.errmsg.getD i "") (c.hard.getD i false)).1
                ++ " - Command " ++ c.cmds.getD i "" ++ " errored with " ++ c.errmsg.getD i ""
                ++ ". Underlying error is " ++ err.Error)])
            (ret, some (GoError.errorString (c.errmsg.getD i "")))
      | none =>
          inspectCmdsLoop env c n (i + 1)
            (inspectCmd env (log ++ [Event.traceMsg ("Current cmd: " ++ c.cmds.getD i "")])
              (c.cmds.getD i "") (c.errmsg.getD i "") (c.hard.getD i false)).1
            (ret ++ [(inspectCmd env
              (log ++ [Event.traceMsg ("Current cmd: " ++ c.cmds.getD i "")])
              (c.cmds.getD i "") (c.errmsg.getD i "") (c.hard.getD i false)).2.1]) := by
  rw [inspectCmdsLoop, getElem?_eq_some_getD c.cmds i "" hc,
    getElem?_eq_some_getD c.errmsg i "" he, getElem?_eq_some_getD c.hard i false hh]

theorem capturedStdout_eq (env : Env) (log : List Event) (c : osCmds) (i : Nat)
    (h : (inspectResAt env log c i).2.2 = none) :
    (inspectResAt env log c i).2.1 = capturedStdout env log c i := by
  unfold inspectResAt at h ⊢
  rw [inspectCmd_ok_out env _ _ _ _ h]
  unfold capturedStdout
  simp only [List.append_assoc, List.singleton_append, List.cons_append, List.nil_append]

/-- As long as `inspectCmd` returns no error, the loop of `inspectCmds`
advances and appends the captured outputs to its result. -/
theorem inspectCmdsLoop_skip (env : Env) (log : List Event) (c : osCmds) (k : Nat)
    (hk : k ≤ c.cmds.length) (he : k ≤ c.errmsg.length) (hh : k ≤ c.hard.length)
    (hok : ∀ j, j < k → (inspectResAt env log c j).2.2 = none) :
    ∀ d i ret, i + d = k →
      inspectCmdsLoop env c (c.cmds.length - i) i (inspectLogAt env log c i) ret =
        inspectCmdsLoop env c (c.cmds.length - k) k (inspectLogAt env log c k)
          (ret ++ (List.range' i d).map (capturedStdout env log c)) := by
  intro d
  induction d with
  | zero => intro i ret hi; simp at hi; subst hi; simp
  | succ d ih =>
      intro i ret hi
      have hlen : c.cmds.length - i = (c.cmds.length - (i + 1)) + 1 := by omega
      have hj := hok i (by omega)
      have hcap := capturedStdout_eq env log c i hj
      unfold inspectResAt at hj hcap
      rw [hlen, inspectCmdsLoop_step env c _ i _ _ (by omega) (by omega) (by omega), hj]
      simp only []
      rw [hcap]
      have hnext := ih (i + 1) (ret ++ [capturedStdout env log c i]) (by omega)
      rw [inspectLogAt] at hnext
      rw [hnext, List.range'_succ]
      simp

/-! ## The inspecting runner -/

/-- C4: if `inspectCmd` returns no error for any of the `n` commands of the
set, `inspectCmds` returns no error and a slice of length `n + 1` whose slot
`0` is the empty string and whose slot `i + 1` is the captured standard
output of command `i`; for `echo A`, `echo B` with captured outputs `"A\n"`
and `"B\n"` the result is `["", "A\n", "B\n"]` with no error. -/
theorem inspectCmds_all_succeed (env : Env) (log : List Event) (c : osCmds)
    (hw : WellIndexed c)
    (hok : ∀ i, i < c.cmds.length → (inspectResAt env log c i).2.2 = none) :
    (∃ log' outs, inspectCmds env log c = Outcome.ret log' (outs, none) ∧
      outs = "" :: (List.range c.cmds.length).map (capturedStdout env log c) ∧
      outs.length = c.cmds.length + 1 ∧ outs[0]? = some "" ∧
      ∀ i, i < c.cmds.length → outs[i + 1]? = some (capturedStdout env log c i)) ∧
    (inspectCmds sampleEnv [] echoCmds).val? = some (["", "A\n", "B\n"], none) := by
  refine ⟨?_, by decide⟩
  have hskip := inspectCmdsLoop_skip env log c c.cmds.length (le_refl _) hw.1 hw.2 hok
    c.cmds.length 0 [""] (by omega)
  simp only [Nat.sub_zero, Nat.sub_self, inspectLogAt] at hskip
  refine ⟨inspectLogAt env log c c.cmds.length, _, ?_, rfl, by simp, by simp, ?_⟩
  · unfold inspectCmds
    rw [hskip, inspectCmdsLoop, List.range_eq_range']
    rfl
  · intro i hi
    simp [List.getElem?_range, hi]

/-- An instance of the preceding theorem on `echoCmds`. -/
theorem inspectCmds_all_succeed_witness :
    (∃ log' outs, inspectCmds sampleEnv [] echoCmds = Outcome.ret log' (outs, none) ∧
      outs = "" :: (List.range echoCmds.cmds.length).map (capturedStdout sampleEnv [] echoCmds) ∧
      outs.length = echoCmds.cmds.length + 1 ∧ outs[0]? = some "" ∧
      ∀ i, i < echoCmds.cmds.length →
        outs[i + 1]? = some (capturedStdout sampleEnv [] echoCmds i)) ∧
    (inspectCmds sampleEnv [] echoCmds).val? = some (["", "A\n", "B\n"], none) :=
  inspectCmds_all_succeed sampleEnv [] echoCmds ⟨by decide, by decide⟩ (by decide)

/-- C5: on the set built by `addCmd` with `("echo A", "first")` and
`("false", "boom")`, the second command failing, `inspectCmds` returns the
partial results `["", "A\n"]` together with an error whose text is `"false"`,
the text of the failing command, and not `"boom"`, its configured message. -/
theorem inspectCmds_error_is_command_text :
    (inspectCmds sampleEnv [] brokenCmds).val? =
        some (["", "A\n"], some (GoError.errorString "false")) ∧
      brokenCmds.errmsg = ["echo A", "false", "boom"] ∧
      GoError.errorString "false" ≠ GoError.errorString "boom" := by
  decide

/-! ## Refused prompt writes -/

/-- C8, counterexample: with a sink that refuses every write, `tryCmd` and
`inspectCmd` on `echo A` return the write error and never start the
command. -/
theorem tryCmd_gives_up_on_refused_prompt :
    (closedSinkEnv.sinkWrite [Event.traceMsg "Entering tryCmd"]
        (promptLine closedSinkEnv "echo A")).isSome = true ∧
      launched (tryCmd closedSinkEnv [] "echo A" "m" false).1 = [] ∧
      (tryCmd closedSinkEnv [] "echo A" "m" false).2 =
        some (GoError.other "write: file already closed") ∧
      launched (inspectCmd closedSinkEnv [] "echo A" "m" false).1 = [] ∧
      (inspectCmd closedSinkEnv [] "echo A" "m" false).2.2 =
        some (GoError.other "write: file already closed") := by
  decide

theorem sendCmdFinish_extends (env : Env) (log : List Event) (out : String)
    (pre : List Event) (h : ∃ r, log = pre ++ r) :
    ∃ rest, sendCmdFinish env log out = pre ++ rest := by
  obtain ⟨r, hr⟩ := h
  unfold sendCmdFinish
  split
  · rename_i e he
    exact ⟨r ++ [Event.writeOutput out] ++ [Event.errorMsg
      ("Failed to write to OS command log file, error was: " ++ e.Error)], by rw [hr]; simp⟩
  · exact ⟨r ++ [Event.writeOutput out], by rw [hr]; simp⟩

/-- The log of `sendCmd` is the log of its setup, then the `CombinedOutput`
call, then whatever follows. -/
theorem sendCmd_log_shape (env : Env) (log : List Event) (cmd lerr : String) (hard : Bool) :
    ∃ rest, (sendCmd env log cmd lerr hard).log =
      sendCmdSetup env log cmd ++ [Event.combinedOutput cmd] ++ rest := by
  unfold sendCmd
  simp only []
  split
  · cases hard
    · simp only [Bool.false_eq_true, if_false, Outcome.log]
      exact sendCmdFinish_extends env _ _ _ ⟨_, rfl⟩
    · simp only [if_true, Outcome.log]
      exact ⟨_, rfl⟩
  · simp only [Outcome.log]
    exact sendCmdFinish_extends env _ _ _ ⟨[], by simp⟩

/-- C8, amended: when the write of the prompt line is refused with error `e`,
`sendCmd` reports the failure with `errorMsg` and goes on to launch the
command with `CombinedOutput`; it then exits exactly when the command is hard
and its run fails, and returns normally otherwise.  `tryCmd` and `inspectCmd`
trace the failure and return `e` at once, without starting the command. -/
theorem prompt_write_refused (env : Env) (log : List Event) (cmd lerr : String)
    (hard : Bool) (e : GoError) :
    (env.sinkWrite log (promptLine env cmd) = some e →
      (∃ rest, (sendCmd env log cmd lerr hard).log =
        log ++ [Event.writePrompt (promptLine env cmd),
          Event.errorMsg ("Failed to setup command, error was: " ++ e.Error),
          Event.combinedOutput cmd] ++ rest) ∧
      launched (sendCmd env log cmd lerr hard).log = launched log ++ [cmd] ∧
      ((∃ l code, sendCmd env log cmd lerr hard = Outcome.exited l code) ↔
        (hard = true ∧
          (env.combinedOutput (refusedSetupLog env log cmd e) cmd).2.isSome = true)) ∧
      ((∃ l, sendCmd env log cmd lerr hard = Outcome.ret l ()) ↔
        ¬ (hard = true ∧
          (env.combinedOutput (refusedSetupLog env log cmd e) cmd).2.isSome = true))) ∧
    (env.sinkWrite (log ++ [Event.traceMsg "Entering tryCmd"]) (promptLine env cmd) = some e →
      tryCmd env log cmd lerr hard =
        (log ++ [Event.traceMsg "Entering tryCmd", Event.writePrompt (promptLine env cmd),
          Event.traceMsg ("Failed to setup command " ++ env.redact cmd ++ ", error was: "
            ++ e.Error)], some e) ∧
      launched (tryCmd env log cmd lerr hard).1 = launched log) ∧
    (env.sinkWrite (log ++ [Event.traceMsg "Inside inspectCmd"]) (promptLine env cmd) = some e →
      inspectCmd env log cmd lerr hard =
        (log ++ [Event.traceMsg "Inside inspectCmd", Event.writePrompt (promptLine env cmd),
          Event.traceMsg ("Failed to setup command, error was: " ++ e.Error)], "", some e) ∧
      launched (inspectCmd env log cmd lerr hard).1 = launched log) := by
  refine ⟨?_, ?_, ?_⟩
  · intro hw
    have hL : sendCmdSetup env log cmd = refusedSetupLog env log cmd e := by
      unfold sendCmdSetup refusedSetupLog
      simp [hw]
    have hF : execFails env log cmd =
        (env.combinedOutput (refusedSetupLog env log cmd e) cmd).2.isSome := by
      unfold execFails
      rw [hL]
    have hexit : (∃ l code, sendCmd env log cmd lerr hard = Outcome.exited l code) ↔
        (hard = true ∧ execFails env log cmd = true) := by
      constructor
      · rintro ⟨l, code, hex⟩
        by_contra hcon
        have hr := (sendCmd_returns env log cmd lerr hard hcon).1
        rw [hex] at hr
        exact Outcome.noConfusion hr
      · rintro ⟨hhard, hfail⟩
        subst hhard
        obtain ⟨msg, hm⟩ := sendCmd_exits env log cmd lerr hfail
        exact ⟨_, _, hm⟩
    refine ⟨?_, launched_sendCmd env log cmd lerr hard, ?_, ?_⟩
    · obtain ⟨rest, hrest⟩ := sendCmd_log_shape env log cmd lerr hard
      refine ⟨rest, ?_⟩
      rw [hrest, hL]
      unfold refusedSetupLog
      simp
    · rw [← hF]
      exact hexit
    · rw [← hF]
      constructor
      · rintro ⟨l, hret⟩ hcon
        obtain ⟨l', code, hex⟩ := hexit.2 hcon
        rw [hex] at hret
        exact Outcome.noConfusion hret
      · intro hcon
        exact ⟨_, (sendCmd_returns env log cmd lerr hard hcon).1⟩
  · intro hw
    have h1 : tryCmd env log cmd lerr hard =
        (log ++ [Event.traceMsg "Entering tryCmd", Event.writePrompt (promptLine env cmd),
          Event.traceMsg ("Failed to setup command " ++ env.redact cmd ++ ", error was: "
            ++ e.Error)], some e) := by
      unfold tryCmd
      simp [hw]
    refine ⟨h1, ?_⟩
    rw [h1]
    simp [launched]
  · intro hw
    have h1 : inspectCmd env log cmd lerr hard =
        (log ++ [Event.traceMsg "Inside inspectCmd", Event.writePrompt (promptLine env cmd),
          Event.traceMsg ("Failed to setup command, error was: " ++ e.Error)], "", some e) := by
      unfold inspectCmd
      simp [hw]
    refine ⟨h1, ?_⟩
    rw [h1]
    simp [launched]

/-- Instances of the preceding theorem with a sink that refuses every write:
`sendCmd` on a soft command that succeeds and on a hard command that fails,
`tryCmd` and `inspectCmd`; and the log of `sendCmd` on the hard command. -/
theorem prompt_write_refused_witness :
    ((∃ rest, (sendCmd closedSinkEnv [] "echo A" "m" false).log =
        [] ++ [Event.writePrompt (promptLine closedSinkEnv "echo A"),
          Event.errorMsg ("Failed to setup command, error was: "
            ++ (GoError.other "write: file already closed").Error),
          Event.combinedOutput "echo A"] ++ rest) ∧
      launched (sendCmd closedSinkEnv [] "echo A" "m" false).log = launched [] ++ ["echo A"] ∧
      ((∃ l code, sendCmd closedSinkEnv [] "echo A" "m" false = Outcome.exited l code) ↔
        (false = true ∧
          (closedSinkEnv.combinedOutput (refusedSetupLog closedSinkEnv [] "echo A"
            (GoError.other "write: file already closed")) "echo A").2.isSome = true)) ∧
      ((∃ l, sendCmd closedSinkEnv [] "echo A" "m" false = Outcome.ret l ()) ↔
        ¬ (false = true ∧
          (closedSinkEnv.combinedOutput (refusedSetupLog closedSinkEnv [] "echo A"
            (GoError.other "write: file already closed")) "echo A").2.isSome = true))) ∧
    ((∃ rest, (sendCmd closedSinkEnv [] "false" "m" true).log =
        [] ++ [Event.writePrompt (promptLine closedSinkEnv "false"),
          Event.errorMsg ("Failed to setup command, error was: "
            ++ (GoError.other "write: file already closed").Error),
          Event.combinedOutput "false"] ++ rest) ∧
      launched (sendCmd closedSinkEnv [] "false" "m" true).log = launched [] ++ ["false"] ∧
      ((∃ l code, sendCmd closedSinkEnv [] "false" "m" true = Outcome.exited l code) ↔
        (true = true ∧
          (closedSinkEnv.combinedOutput (refusedSetupLog closedSinkEnv [] "false"
            (GoError.other "write: file already closed")) "false").2.isSome = true)) ∧
      ((∃ l, sendCmd closedSinkEnv [] "false" "m" true = Outcome.ret l ()) ↔
        ¬ (true = true ∧
          (closedSinkEnv.combinedOutput (refusedSetupLog closedSinkEnv [] "false"
            (GoError.other "write: file already closed")) "false").2.isSome = true))) ∧
    (tryCmd closedSinkEnv [] "echo A" "m" false =
        ([] ++ [Event.traceMsg "Entering tryCmd",
          Event.writePrompt (promptLine closedSinkEnv "echo A"),
          Event.traceMsg ("Failed to setup command " ++ closedSinkEnv.redact "echo A"
            ++ ", error was: " ++ (GoError.other "write: file already closed").Error)],
          some (GoError.other "write: file already closed")) ∧
      launched (tryCmd closedSinkEnv [] "echo A" "m" false).1 = launched []) ∧
    (inspectCmd closedSinkEnv [] "echo A" "m" false =
        ([] ++ [Event.traceMsg "Inside inspectCmd",
          Event.writePrompt (promptLine closedSinkEnv "echo A"),
          Event.traceMsg ("Failed to setup command, error was: "
            ++ (GoError.other "write: file already closed").Error)], "",
          some (GoError.other "write: file already closed")) ∧
      launched (inspectCmd closedSinkEnv [] "echo A" "m" false).1 = launched []) ∧
    sendCmd closedSinkEnv [] "false" "m" true =
      Outcome.exited
        [Event.writePrompt "[godojo] # false\n",
          Event.errorMsg "Failed to setup command, error was: write: file already closed",
          Event.combinedOutput "false",
          Event.errorMsg
            "2006/01/02 15:04:05 - Failed to run OS command false, error was: exit status 1"]
        1 :=
  ⟨(prompt_write_refused closedSinkEnv [] "echo A" "m" false
      (GoError.other "write: file already closed")).1 rfl,
    (prompt_write_refused closedSinkEnv [] "false" "m" true
      (GoError.other "write: file already closed")).1 rfl,
    (prompt_write_refused closedSinkEnv [] "echo A" "m" false
      (GoError.other "write: file already closed")).2.1 rfl,
    (prompt_write_refused closedSinkEnv [] "echo A" "m" false
      (GoError.other "write: file already closed")).2.2 rfl,
    by decide⟩

/-! ## Interpretation of the result of `Wait` -/

/-- How `tryCmd` interprets the result of `Wait`, once the prompt write and
`Start` have succeeded: success and an `*exec.ExitError` without inspectable
status give no error, every other result of `Wait` is returned. -/
theorem tryCmd_wait_cases (env : Env) (log : List Event) (cmd lerr : String) (hard : Bool)
    (hw : env.sinkWrite (log ++ [Event.traceMsg "Entering tryCmd"]) (promptLine env cmd) = none)
    (hs : env.start (log ++ [Event.traceMsg "Entering tryCmd",
      Event.writePrompt (promptLine env cmd)]) cmd = none) :
    (tryCmd env log cmd lerr hard).2 =
      match (env.wait (log ++ [Event.traceMsg "Entering tryCmd",
          Event.writePrompt (promptLine env cmd), Event.start cmd]) cmd).2 with
      | none => none
      | some (GoError.exitError none _) => none
      | some err => some err := by
  have hs' : env.start (log ++ [Event.traceMsg "Entering tryCmd"] ++
      [Event.writePrompt (promptLine env cmd)]) cmd = none := by
    rw [← hs]; simp
  have ha : log ++ [Event.traceMsg "Entering tryCmd"] ++
      [Event.writePrompt (promptLine env cmd)] ++ [Event.start cmd] =
      log ++ [Event.traceMsg "Entering tryCmd", Event.writePrompt (promptLine env cmd),
        Event.start cmd] := by simp
  unfold tryCmd
  simp only [hw, hs', ha]
  cases (env.wait (log ++ [Event.traceMsg "Entering tryCmd",
      Event.writePrompt (promptLine env cmd), Event.start cmd]) cmd).2 with
  | none => rfl
  | some err =>
      cases err with
      | errorString s => rfl
      | other t => rfl
      | exitError sys t => cases sys <;> rfl

/-- How `inspectCmd` interprets the result of `Wait`, once the prompt write
and `Start` have succeeded: success and an `*exec.ExitError` without
inspectable status give no error, every other result of `Wait` is returned. -/
theorem inspectCmd_wait_cases (env : Env) (log : List Event) (cmd lerr : String)
    (hard : Bool)
    (hw : env.sinkWrite (log ++ [Event.traceMsg "Inside inspectCmd"]) (promptLine env cmd) = none)
    (hs : env.start (log ++ [Event.traceMsg "Inside inspectCmd",
      Event.writePrompt (promptLine env cmd)]) cmd = none) :
    (inspectCmd env log cmd lerr hard).2.2 =
      match (env.wait (log ++ [Event.traceMsg "Inside inspectCmd",
          Event.writePrompt (promptLine env cmd), Event.start cmd,
          Event.traceMsg "Before runCmd.Wait()"]) cmd).2 with
      | none => none
      | some (GoError.exitError none _) => none
      | some err => some err := by
  have hs' : env.start (log ++ [Event.traceMsg "Inside inspectCmd"] ++
      [Event.writePrompt (promptLine env cmd)]) cmd = none := by
    rw [← hs]; simp
  have ha : log ++ [Event.traceMsg "Inside inspectCmd"] ++
      [Event.writePrompt (promptLine env cmd)] ++ [Event.start cmd] ++
      [Event.traceMsg "Before runCmd.Wait()"] =
      log ++ [Event.traceMsg "Inside inspectCmd", Event.writePrompt (promptLine env cmd),
        Event.start cmd, Event.traceMsg "Before runCmd.Wait()"] := by simp
  unfold inspectCmd
  simp only [hw, hs', ha]
  cases (env.wait (log ++ [Event.traceMsg "Inside inspectCmd",
      Event.writePrompt (promptLine env cmd), Event.start cmd,
      Event.traceMsg "Before runCmd.Wait()"]) cmd).2 with
  | none => rfl
  | some err =>
      cases err with
      | errorString s => rfl
      | other t => rfl
      | exitError sys t => cases sys <;> rfl

theorem tryCmd_write_fails (env : Env) (log : List Event) (cmd lerr : String)
    (hard : Bool) (e : GoError)
    (hw : env.sinkWrite (log ++ [Event.traceMsg "Entering tryCmd"]) (promptLine env cmd)
      = some e) :
    (tryCmd env log cmd lerr hard).2 = some e := by
  unfold tryCmd
  simp only [hw]

theorem inspectCmd_write_fails (env : Env) (log : List Event) (cmd lerr : String)
    (hard : Bool) (e : GoError)
    (hw : env.sinkWrite (log ++ [Event.traceMsg "Inside inspectCmd"]) (promptLine env cmd)
      = some e) :
    (inspectCmd env log cmd lerr hard).2.2 = some e := by
  unfold inspectCmd
  simp only [hw]

theorem tryCmd_start_fails (env : Env) (log : List Event) (cmd lerr : String) (hard : Bool)
    (e : GoError)
    (hw : env.sinkWrite (log ++ [Event.traceMsg "Entering tryCmd"]) (promptLine env cmd) = none)
    (hs : env.start (log ++ [Event.traceMsg "Entering tryCmd",
      Event.writePrompt (promptLine env cmd)]) cmd = some e) :
    (tryCmd env log cmd lerr hard).2 = some e := by
  have hs' : env.start (log ++ [Event.traceMsg "Entering tryCmd"] ++
      [Event.writePrompt (promptLine env cmd)]) cmd = some e := by
    rw [← hs]; simp
  unfold tryCmd
  simp only [hw, hs']

theorem inspectCmd_start_fails (env : Env) (log : List Event) (cmd lerr : String)
    (hard : Bool) (e : GoError)
    (hw : env.sinkWrite (log ++ [Event.traceMsg "Inside inspectCmd"]) (promptLine env cmd) = none)
    (hs : env.start (log ++ [Event.traceMsg "Inside inspectCmd",
      Event.writePrompt (promptLine env cmd)]) cmd = some e) :
    (inspectCmd env log cmd lerr hard).2.2 = some e := by
  have hs' : env.start (log ++ [Event.traceMsg "Inside inspectCmd"] ++
      [Event.writePrompt (promptLine env cmd)]) cmd = some e := by
    rw [← hs]; simp
  unfold inspectCmd
  simp only [hw, hs']

theorem statusInspectable_match (r : Option GoError) :
    statusInspectable r = true →
      (match r with
        | none => none
        | some (GoError.exitError none _) => none
        | some err => some err) = r := by
  cases r with
  | none => intro _; rfl
  | some err =>
      cases err with
      | errorString s => intro _; rfl
      | other t => intro _; rfl
      | exitError sys t =>
          cases sys with
          | none => intro h; exact Bool.noConfusion h
          | some st => intro _; rfl

/-- C9: with the result of `Wait` one that `os/exec` produces (success, an
exit error with inspectable wait status, or another wait error), `tryCmd`
returns no error exactly when the prompt write and `Start` succeeded and
`Wait` returned no error; once the process has been started, the error
`tryCmd` returns is the error of `Wait`, so an error is returned in every
case where the child exited non-zero or `Wait` failed otherwise.  The same
holds for `inspectCmd`. -/
theorem wait_result_decides (env : Env) (log : List Event) (cmd lerr : String) (hard : Bool)
    (hT : statusInspectable (env.wait (log ++ [Event.traceMsg "Entering tryCmd",
      Event.writePrompt (promptLine env cmd), Event.start cmd]) cmd).2 = true)
    (hI : statusInspectable (env.wait (log ++ [Event.traceMsg "Inside inspectCmd",
      Event.writePrompt (promptLine env cmd), Event.start cmd,
      Event.traceMsg "Before runCmd.Wait()"]) cmd).2 = true) :
    ((tryCmd env log cmd lerr hard).2 = none ↔
      (env.sinkWrite (log ++ [Event.traceMsg "Entering tryCmd"]) (promptLine env cmd) = none ∧
        env.start (log ++ [Event.traceMsg "Entering tryCmd",
          Event.writePrompt (promptLine env cmd)]) cmd = none ∧
        (env.wait (log ++ [Event.traceMsg "Entering tryCmd",
          Event.writePrompt (promptLine env cmd), Event.start cmd]) cmd).2 = none)) ∧
    (env.sinkWrite (log ++ [Event.traceMsg "Entering tryCmd"]) (promptLine env cmd) = none →
      env.start (log ++ [Event.traceMsg "Entering tryCmd",
        Event.writePrompt (promptLine env cmd)]) cmd = none →
      (tryCmd env log cmd lerr hard).2 =
        (env.wait (log ++ [Event.traceMsg "Entering tryCmd",
          Event.writePrompt (promptLine env cmd), Event.start cmd]) cmd).2) ∧
    ((inspectCmd env log cmd lerr hard).2.2 = none ↔
      (env.sinkWrite (log ++ [Event.traceMsg "Inside inspectCmd"]) (promptLine env cmd) = none ∧
        env.start (log ++ [Event.traceMsg "Inside inspectCmd",
          Event.writePrompt (promptLine env cmd)]) cmd = none ∧
        (env.wait (log ++ [Event.traceMsg "Inside inspectCmd",
          Event.writePrompt (promptLine env cmd), Event.start cmd,
          Event.traceMsg "Before runCmd.Wait()"]) cmd).2 = none)) ∧
    (env.sinkWrite (log ++ [Event.traceMsg "Inside inspectCmd"]) (promptLine env cmd) = none →
      env.start (log ++ [Event.traceMsg "Inside inspectCmd",
        Event.writePrompt (promptLine env cmd)]) cmd = none →
      (inspectCmd env log cmd lerr hard).2.2 =
        (env.wait (log ++ [Event.traceMsg "Inside inspectCmd",
          Event.writePrompt (promptLine env cmd), Event.start cmd,
          Event.traceMsg "Before runCmd.Wait()"]) cmd).2) := by
  have hTeq : ∀ (hw : env.sinkWrite (log ++ [Event.traceMsg "Entering tryCmd"])
        (promptLine env cmd) = none)
      (hs : env.start (log ++ [Event.traceMsg "Entering tryCmd",
        Event.writePrompt (promptLine env cmd)]) cmd = none),
      (tryCmd env log cmd lerr hard).2 =
      (env.wait (log ++ [Event.traceMsg "Entering tryCmd",
        Event.writePrompt (promptLine env cmd), Event.start cmd]) cmd).2 := by
    intro hw hs
    rw [tryCmd_wait_cases env log cmd lerr hard hw hs]
    exact statusInspectable_match _ hT
  have hIeq : ∀ (hw : env.sinkWrite (log ++ [Event.traceMsg "Inside inspectCmd"])
        (promptLine env cmd) = none)
      (hs : env.start (log ++ [Event.traceMsg "Inside inspectCmd",
        Event.writePrompt (promptLine env cmd)]) cmd = none),
      (inspectCmd env log cmd lerr hard).2.2 =
      (env.wait (log ++ [Event.traceMsg "Inside inspectCmd",
        Event.writePrompt (promptLine env cmd), Event.start cmd,
        Event.traceMsg "Before runCmd.Wait()"]) cmd).2 := by
    intro hw hs
    rw [inspectCmd_wait_cases env log cmd lerr hard hw hs]
    exact statusInspectable_match _ hI
  refine ⟨?_, hTeq, ?_, hIeq⟩
  · constructor
    · intro hnone
      cases hw : env.sinkWrite (log ++ [Event.traceMsg "Entering tryCmd"])
          (promptLine env cmd) with
      | some e =>
          have h1 := ((tryCmd_write_fails env log cmd lerr hard e) hw)
          rw [h1] at hnone
          exact Option.noConfusion hnone
      | none =>
          cases hs : env.start (log ++ [Event.traceMsg "Entering tryCmd",
              Event.writePrompt (promptLine env cmd)]) cmd with
          | some e =>
              rw [tryCmd_start_fails env log cmd lerr hard e hw hs] at hnone
              exact Option.noConfusion hnone
          | none =>
              rw [hTeq hw hs] at hnone
              exact ⟨rfl, rfl, hnone⟩
    · rintro ⟨hw, hs, hwait⟩
      rw [hTeq hw hs]
      exact hwait
  · constructor
    · intro hnone
      cases hw : env.sinkWrite (log ++ [Event.traceMsg "Inside inspectCmd"])
          (promptLine env cmd) with
      | some e =>
          have h1 := ((inspectCmd_write_fails env log cmd lerr hard e) hw)
          rw [h1] at hnone
          exact Option.noConfusion hnone
      | none =>
          cases hs : env.start (log ++ [Event.traceMsg "Inside inspectCmd",
              Event.writePrompt (promptLine env cmd)]) cmd with
          | some e =>
              rw [inspectCmd_start_fails env log cmd lerr hard e hw hs] at hnone
              exact Option.noConfusion hnone
          | none =>
              rw [hIeq hw hs] at hnone
              exact ⟨rfl, rfl, hnone⟩
    · rintro ⟨hw, hs, hwait⟩
      rw [hIeq hw hs]
      exact hwait

/-- Two instances of the preceding theorem: `false`, which exits with status
1, and `echo A`, which succeeds. -/
theorem wait_result_decides_witness :
    (tryCmd sampleEnv [] "false" "m" false).2 =
        some (GoError.exitError (some 1) "exit status 1") ∧
      (inspectCmd sampleEnv [] "false" "m" false).2.2 =
        some (GoError.exitError (some 1) "exit status 1") ∧
      (tryCmd sampleEnv [] "echo A" "m" false).2 = none ∧
      (inspectCmd sampleEnv [] "echo A" "m" false).2.2 = none :=
  ⟨(wait_result_decides sampleEnv [] "false" "m" false (by decide) (by decide)).2.1
      (by decide) (by decide),
    (wait_result_decides sampleEnv [] "false" "m" false (by decide) (by decide)).2.2.2
      (by decide) (by decide),
    (wait_result_decides sampleEnv [] "echo A" "m" false (by decide) (by decide)).1.2
      ⟨by decide, by decide, by decide⟩,
    (wait_result_decides sampleEnv [] "echo A" "m" false (by decide) (by decide)).2.2.1.2
      ⟨by decide, by decide, by decide⟩⟩

/-! ## Index safety -/

theorem sendCmd_not_panicked (env : Env) (log : List Event) (cmd lerr : String)
    (hard : Bool) (l : List Event) : sendCmd env log cmd lerr hard ≠ Outcome.panicked l := by
  unfold sendCmd
  cases hard <;> (simp only []; split) <;> simp

theorem runCmdsLoop_not_panicked (env : Env) (c : osCmds) (hw : WellIndexed c) :
    ∀ n i log l, n + i ≤ c.cmds.length → runCmdsLoop env c n i log ≠ Outcome.panicked l := by
  intro n
  induction n with
  | zero => intro i log l _; simp [runCmdsLoop]
  | succ n ih =>
      intro i log l hi
      rw [runCmdsLoop_step env c n i log (by omega) (by have := hw.1; omega)
        (by have := hw.2; omega)]
      cases hs : sendCmd env log (c.cmds.getD i "") (c.errmsg.getD i "")
          (c.hard.getD i false) with
      | ret log1 v => exact ih (i + 1) log1 l (by omega)
      | exited log1 code => simp
      | panicked log1 => exact absurd hs (sendCmd_not_panicked _ _ _ _ _ _)

theorem tryCmdsLoop_not_panicked (env : Env) (c : osCmds) (hw : WellIndexed c) :
    ∀ n i log l, n + i ≤ c.cmds.length → tryCmdsLoop env c n i log ≠ Outcome.panicked l := by
  intro n
  induction n with
  | zero => intro i log l _; simp [tryCmdsLoop]
  | succ n ih =>
      intro i log l hi
      rw [tryCmdsLoop_step env c n i log (by omega) (by have := hw.1; omega)
        (by have := hw.2; omega)]
      split
      · simp
      · exact ih (i + 1) _ l (by omega)

theorem inspectCmdsLoop_not_panicked (env : Env) (c : osCmds) (hw : WellIndexed c) :
    ∀ n i log ret l, n + i ≤ c.cmds.length →
      inspectCmdsLoop env c n i log ret ≠ Outcome.panicked l := by
  intro n
  induction n with
  | zero => intro i log ret l _; simp [inspectCmdsLoop]
  | succ n ih =>
      intro i log ret l hi
      rw [inspectCmdsLoop_step env c n i log ret (by omega) (by have := hw.1; omega)
        (by have := hw.2; omega)]
      split
      · simp
      · exact ih (i + 1) _ _ l (by omega)

/-- C10: for a command set obtained from `newCmds` by `addCmd` calls, every
index of `cmds` is an index of `errmsg` and of `hard`, and in no environment
does `runCmds`, `tryCmds` or `inspectCmds` end in an index-out-of-range
failure. -/
theorem built_indices_in_range (c : osCmds) (h : Built c) :
    (∀ i, i < c.cmds.length → i < c.errmsg.length ∧ i < c.hard.length) ∧
      ∀ (env : Env) (log l : List Event),
        runCmds env log c ≠ Outcome.panicked l ∧
        tryCmds env log c ≠ Outcome.panicked l ∧
        inspectCmds env log c ≠ Outcome.panicked l := by
  have hw := built_wellIndexed c h
  refine ⟨?_, ?_⟩
  · intro i hi
    have h1 := hw.1
    have h2 := hw.2
    exact ⟨by omega, by omega⟩
  · intro env log l
    exact ⟨runCmdsLoop_not_panicked env c hw _ _ _ _ (by omega),
      tryCmdsLoop_not_panicked env c hw _ _ _ _ (by omega),
      inspectCmdsLoop_not_panicked env c hw _ _ _ _ _ (by omega)⟩

/-- An instance of the preceding theorem on `gateCmds`, built by three `addCmd` calls. -/
theorem built_indices_in_range_witness :
    Built gateCmds ∧
      (∀ i, i < gateCmds.cmds.length →
        i < gateCmds.errmsg.length ∧ i < gateCmds.hard.length) ∧
      ∀ (env : Env) (log l : List Event),
        runCmds env log gateCmds ≠ Outcome.panicked l ∧
        tryCmds env log gateCmds ≠ Outcome.panicked l ∧
        inspectCmds env log gateCmds ≠ Outcome.panicked l :=
  ⟨built_buildCmds _ _, built_indices_in_range gateCmds (built_buildCmds _ _)⟩

end Godojo
